import Mathlib

/-!
# Donut `ResourceManager` — shallow embedding and verified properties

Source: `src/ResourceManager.cpp`.

The resource manager owns four name-keyed tables (`_textures`, `_shaders`,
`_geometries`, `_fonts`) and one fallback texture (`_errorTexture`).

Modelling conventions
* `Texture*` values are addresses (`Ptr`) into an explicit heap of `Texture`
  objects; address `0` is `nullptr`; `new` returns a fresh address and never
  moves or changes an existing object.
* `std::unique_ptr<Shader|Mesh>` table entries are only ever written with the
  result of `std::make_unique`, so they are never empty and the table stores the
  owned object itself.  `_fonts` stores the `std::unique_ptr<Font>` handed in by
  the caller, which may be empty: its entries are `Option Font`, `none` being the
  empty pointer.  A returned raw pointer to an owned object is modelled as
  `Option` of the object (`none` is `nullptr`).
* Every member function takes the state and returns the new state (and the
  returned value, if any).  Undefined behaviour and thrown exceptions are
  explicit `Except.error` results.
* A name-keyed map is a list of key/value pairs without duplicate keys;
  `operator[] =` is `Table.assign`, `find(k) != end()` is `Table.find`.
-/

namespace Donut

/-! ## Name-keyed tables (`std::map<std::string, V>`) -/

/-- Lookup of a key in a raw entry list: the value of the first entry with that key. -/
def findEntry {V : Type} : List (String × V) → String → Option V
  | [], _ => none
  | (k', v) :: rest, k => if k' = k then some v else findEntry rest k

/-- Raw `m[k] = v`: replace the value stored under `k`, or add a new entry. -/
def assignEntry {V : Type} : List (String × V) → String → V → List (String × V)
  | [], k, v => [(k, v)]
  | (k', v') :: rest, k, v =>
    if k' = k then (k, v) :: rest else (k', v') :: assignEntry rest k v

/-- A `std::map<std::string, V>`: entries with pairwise distinct keys. -/
structure Table (V : Type) where
  entries : List (String × V)
  nodup : (entries.map Prod.fst).Nodup

namespace Table

/-- The default-constructed, empty map. -/
def empty {V : Type} : Table V := ⟨[], List.nodup_nil⟩

/-- Lookup `m.find(k)`: `none` stands for `end()`; `some v` is the mapped value `m.at(k)`. -/
def find {V : Type} (t : Table V) (k : String) : Option V := findEntry t.entries k

/-- Assignment `m[k] = v`: the entry under `k` is replaced, or added when there is none. -/
def assign {V : Type} (t : Table V) (k : String) (v : V) : Table V :=
  ⟨assignEntry t.entries k v, by
    have key : ∀ l : List (String × V), (l.map Prod.fst).Nodup →
        ((assignEntry l k v).map Prod.fst).Nodup ∧
          ∀ x, x ∈ (assignEntry l k v).map Prod.fst → x = k ∨ x ∈ l.map Prod.fst := by
      intro l
      induction l with
      | nil =>
        intro _
        refine ⟨List.nodup_singleton k, ?_⟩
        intro x hx
        exact Or.inl (List.mem_singleton.mp hx)
      | cons hd tl ih =>
        intro hnd
        obtain ⟨k', v'⟩ := hd
        have hnd' : k' ∉ tl.map Prod.fst ∧ (tl.map Prod.fst).Nodup := List.nodup_cons.mp hnd
        by_cases h : k' = k
        · subst h
          simp only [assignEntry, if_true]
          exact ⟨hnd, fun x hx => Or.inr hx⟩
        · simp only [assignEntry, h, if_false, List.map_cons]
          obtain ⟨ih1, ih2⟩ := ih hnd'.2
          refine ⟨List.nodup_cons.mpr ⟨?_, ih1⟩, ?_⟩
          · intro hmem
            rcases ih2 k' hmem with hk | hk
            · exact h hk
            · exact hnd'.1 hk
          · intro x hx
            rcases List.mem_cons.mp hx with hx | hx
            · exact Or.inr (List.mem_cons.mpr (Or.inl hx))
            · rcases ih2 x hx with hk | hk
              · exact Or.inl hk
              · exact Or.inr (List.mem_cons.mpr (Or.inr hk))
    exact (key t.entries t.nodup).1⟩

/-- Size `m.size()`: the number of entries. -/
def size {V : Type} (t : Table V) : Nat := t.entries.length

/-- The keys of the map. -/
def keys {V : Type} (t : Table V) : List String := t.entries.map Prod.fst

end Table

/-! ## Objects handled by the manager -/

/-- A `Texture*`: an address in the texture heap; `0` is `nullptr`. -/
abbrev Ptr := Nat

/-- Modelled from the spec: the pixel format enumeration `Texture::Format` (declared in
`Pure3D/Texture.h`, absent from the sources); the manager names only `RGBA8`. -/
inductive Format where
  | RGBA8
  | other (tag : Nat)
deriving DecidableEq, Repr

/-- Modelled from the spec: the runtime `Texture` class (declared in `Pure3D/Texture.h`,
absent from the sources), with the fields of the spec's data model: name, width, height,
pixel format, raw pixel bytes. -/
structure Texture where
  name : String
  width : Nat
  height : Nat
  format : Format
  data : List Nat
deriving DecidableEq, Repr

/-- Modelled from the spec: `Texture::Create(width, height, format, data)` (defined outside the
sources) gives the object the stated dimensions, format and pixel bytes. -/
def Texture.Create (t : Texture) (width height : Nat) (format : Format) (data : List Nat) :
    Texture :=
  { t with width := width, height := height, format := format, data := data }

/-- Modelled from the spec: the runtime `Shader` class (declared in `Render/Shader.h`, absent from
the sources): the stored diffuse-texture name, the texture pointer it is currently bound to,
and its other material scalars. -/
structure Shader where
  diffuseTextureName : String
  diffuseTexture : Ptr
  scalars : List Nat
deriving DecidableEq, Repr

/-- Member function `Shader::GetDiffuseTextureName()`. -/
def Shader.GetDiffuseTextureName (sh : Shader) : String := sh.diffuseTextureName

/-- Member function `Shader::SetDiffuseTexture(texture)`. -/
def Shader.SetDiffuseTexture (sh : Shader) (texture : Ptr) : Shader :=
  { sh with diffuseTexture := texture }

/-- Modelled from the spec: the runtime `Mesh` class (declared in `Render/Mesh.h`, absent from the
sources); its content is not inspected by the manager. -/
structure Mesh where
  payload : List Nat
deriving DecidableEq, Repr

/-- Modelled from the spec: the runtime `Font` class (declared in `Render/Font.h`, absent from the
sources); its content is not inspected by the manager. -/
structure Font where
  payload : List Nat
deriving DecidableEq, Repr

namespace P3D

/-- Modelled from the spec: decoded texture chunk (`P3D/P3D.generated.h`, absent from the
sources); the manager only hands it to the `Texture` constructor. -/
structure Texture where
  name : String
  payload : List Nat
deriving DecidableEq, Repr

/-- Modelled from the spec: decoded sprite chunk; the manager uses `GetName()` only. -/
structure Sprite where
  name : String
  payload : List Nat
deriving DecidableEq, Repr

/-- Modelled from the spec: decoded shader chunk; the manager uses `GetName()` only. -/
structure Shader where
  name : String
  payload : List Nat
deriving DecidableEq, Repr

/-- Modelled from the spec: decoded geometry chunk; the manager uses `GetName()` only. -/
structure Geometry where
  name : String
  payload : List Nat
deriving DecidableEq, Repr

/-- Modelled from the spec: decoded set chunk: a name and the ordered candidate textures
returned by `GetTextures()`, each an object owned by the set. -/
structure Set where
  name : String
  textures : List P3D.Texture
deriving DecidableEq, Repr

end P3D

/-- The collaborators of `ResourceManager.cpp` that are defined outside the sources, taken as
parameters: the constructors of the runtime objects and the C random source. -/
structure Env where
  /-- The default constructor `Texture::Texture()`. -/
  newTexture : Texture
  /-- The constructor `Texture::Texture(const P3D::Sprite&)`. -/
  textureOfSprite : P3D.Sprite → Texture
  /-- The constructor `Texture::Texture(const P3D::Texture&)`. -/
  textureOfP3D : P3D.Texture → Texture
  /-- The constructor `Shader::Shader(const P3D::Shader&)`. -/
  shaderOf : P3D.Shader → Shader
  /-- The constructor `Mesh::Mesh(const P3D::Geometry&)`. -/
  meshOf : P3D.Geometry → Mesh
  /-- The value of `std::rand()` called right after `std::srand(seed)`. -/
  rand : Nat → Nat
  /-- The contract `0 ≤ std::rand() ≤ RAND_MAX ≤ INT_MAX`. -/
  rand_lt : ∀ seed, rand seed < 2 ^ 31

/-! ## The texture heap -/

/-- The heap of `Texture` objects: address `p > 0` names cell `p - 1`. -/
abbrev Heap := List Texture

/-- Reading through a pointer; `none` for `nullptr` and for an address never allocated. -/
def Heap.deref (h : Heap) (p : Ptr) : Option Texture :=
  if p = 0 then none else h[p - 1]?

/-- The expression `new Texture(...)`: a fresh non-null address holding the new object. -/
def Heap.alloc (h : Heap) (t : Texture) : Ptr × Heap :=
  (h.length + 1, h ++ [t])

/-- In-place update of the object behind a pointer (a non-const member call). -/
def Heap.update (h : Heap) (p : Ptr) (f : Texture → Texture) : Heap :=
  match h.deref p with
  | some t => h.set (p - 1) (f t)
  | none => h

/-! ## Machine integers and vectors -/

/-- Conversion of a non-negative value to `uint8_t`. -/
def toUInt8 (x : Nat) : Nat := x % 2 ^ 8

/-- Conversion to `uint32_t`, as in `(uint32_t)std::time(0)`. -/
def toUInt32 (x : Nat) : Nat := x % 2 ^ 32

/-- Conversion of a non-negative value to the 32-bit `int` (two's complement wrap). -/
def toInt32 (x : Nat) : Int :=
  ((x + 2 ^ 31) % 2 ^ 32 : Nat) - 2 ^ 31

/-- Conversion of an `int` to the 64-bit `size_t`. -/
def toSizeT (i : Int) : Nat := (i % 2 ^ 64).toNat

/-- The range constructor `std::vector<uint8_t>(first, last)` over a `GLuint` array: one
`uint8_t` element per array element, each converted from the element. -/
def vectorU8FromRange (xs : List Nat) : List Nat := xs.map toUInt8

/-- Failures of the manager's operations: undefined behaviour and thrown exceptions. -/
inductive Fault where
  /-- A member call through `nullptr` or an address that holds no object. -/
  | invalidPointer
  /-- The expression `x % 0`. -/
  | moduloByZero
  /-- The exception `std::out_of_range` thrown by `vector::at`. -/
  | outOfRange
deriving DecidableEq, Repr

/-- The call `v.at(idx)` with an `int` index: bounds-checked element access. -/
def vectorAt {α : Type} (v : List α) (idx : Int) : Except Fault α :=
  match v[toSizeT idx]? with
  | some x => .ok x
  | none => .error .outOfRange

/-! ## The manager state -/

/-- The members of `ResourceManager`, together with the heap its texture pointers refer to. -/
structure State where
  heap : Heap
  _errorTexture : Ptr
  _textures : Table Ptr
  _shaders : Table Shader
  _geometries : Table Mesh
  _fonts : Table (Option Font)

namespace ResourceManager

/-- The array `errorTextureData` of `createErrorTexture`: four `GLuint` pixels. -/
def errorTextureData : List Nat := [0xFFFF00DC, 0xFF000000, 0xFF000000, 0xFFFF00DC]

/-- The byte vector that `createErrorTexture` hands to `Texture::Create`:
`std::vector<uint8_t>(std::begin(errorTextureData), std::end(errorTextureData))`. -/
def errorTextureBytes : List Nat := vectorU8FromRange errorTextureData

/-- Member function `ResourceManager::createErrorTexture`. -/
def createErrorTexture (env : Env) (s : State) : State :=
  let (p, h) := s.heap.alloc env.newTexture
  { s with
    _errorTexture := p
    heap := h.update p (fun t => t.Create 2 2 Format.RGBA8 errorTextureBytes) }

/-- The constructor `ResourceManager::ResourceManager`, run on a program heap `heap`: the four
tables start empty and the fallback texture is created. -/
def construct (env : Env) (heap : Heap) : State :=
  createErrorTexture env
    { heap := heap, _errorTexture := 0, _textures := Table.empty, _shaders := Table.empty,
      _geometries := Table.empty, _fonts := Table.empty }

/-- Member function `ResourceManager::AddTexture(Texture* texture)`. -/
def AddTexture (s : State) (texture : Ptr) : Except Fault State :=
  match s.heap.deref texture with
  | none => .error .invalidPointer
  | some t => .ok { s with _textures := s._textures.assign t.name texture }

/-- Member function `ResourceManager::LoadTexture(const P3D::Sprite& sprite)`. -/
def LoadTexture (env : Env) (s : State) (sprite : P3D.Sprite) : State :=
  let (p, h) := s.heap.alloc (env.textureOfSprite sprite)
  { s with heap := h, _textures := s._textures.assign sprite.name p }

/-- Member function `ResourceManager::LoadShader(const P3D::Shader& shader)`. -/
def LoadShader (env : Env) (s : State) (shader : P3D.Shader) : State :=
  { s with _shaders := s._shaders.assign shader.name (env.shaderOf shader) }

/-- The index computed by `LoadSet`: `int idx = std::rand() % set.GetTextures().size()`
after `std::srand((uint32_t)std::time(0))`, where `time` is the clock value.  The non-negative
`int` returned by `std::rand()` keeps its value as a `size_t`, the remainder is taken in
`size_t`, and the result is converted back to `int`. -/
def LoadSet.idx (env : Env) (set : P3D.Set) (time : Nat) : Except Fault Int :=
  let seed := toUInt32 time
  let size := set.textures.length
  if size = 0 then .error .moduloByZero else .ok (toInt32 (env.rand seed % size))

/-- Member function `ResourceManager::LoadSet(const P3D::Set& set)`, with the clock value `time` read by
`std::time(0)`. -/
def LoadSet (env : Env) (s : State) (set : P3D.Set) (time : Nat) : Except Fault State :=
  match LoadSet.idx env set time with
  | .error e => .error e
  | .ok idx =>
    match vectorAt set.textures idx with
    | .error e => .error e
    | .ok candidate =>
      let (p, h) := s.heap.alloc (env.textureOfP3D candidate)
      .ok { s with heap := h, _textures := s._textures.assign set.name p }

/-- Member function `ResourceManager::LoadGeometry(const P3D::Geometry& geo)`. -/
def LoadGeometry (env : Env) (s : State) (geo : P3D.Geometry) : State :=
  { s with _geometries := s._geometries.assign geo.name (env.meshOf geo) }

/-- Member function `ResourceManager::AddFont(const std::string& name, std::unique_ptr<Font> font)`;
`font` is `none` for an empty `unique_ptr`, which is moved into the table unchecked. -/
def AddFont (s : State) (name : String) (font : Option Font) : State :=
  { s with _fonts := s._fonts.assign name font }

/-- Member function `ResourceManager::GetTexture(name)`: the returned pointer and the state after the call. -/
def GetTexture (s : State) (name : String) : Ptr × State :=
  match s._textures.find name with
  | none => (s._errorTexture, s)
  | some p => (p, s)

/-- Member function `ResourceManager::GetShader(name)`: the shader the returned pointer refers to (`none` for
`nullptr`) and the state after the call.  The shader owned by the table is rebound in place. -/
def GetShader (s : State) (name : String) : Option Shader × State :=
  match s._shaders.find name with
  | none => (none, s)
  | some shader =>
    let texName := shader.GetDiffuseTextureName
    let shader' :=
      match s._textures.find texName with
      | some p => shader.SetDiffuseTexture p
      | none => shader.SetDiffuseTexture s._errorTexture
    (some shader', { s with _shaders := s._shaders.assign name shader' })

/-- Member function `ResourceManager::GetGeometry(name)`. -/
def GetGeometry (s : State) (name : String) : Option Mesh × State :=
  match s._geometries.find name with
  | none => (none, s)
  | some m => (some m, s)

/-- Member function `ResourceManager::GetFont(name)`: `nullptr` when the name is not a key,
otherwise `_fonts.at(name).get()`, the stored pointer. -/
def GetFont (s : State) (name : String) : Option Font × State :=
  match s._fonts.find name with
  | none => (none, s)
  | some f => (f, s)

/-- Iterated lookup: `k` successive `GetTexture(name)` calls; the pointers returned, in order,
and the state after the last call. -/
def GetTextureTimes (s : State) (name : String) : Nat → List Ptr × State
  | 0 => ([], s)
  | k + 1 =>
    let r := GetTexture s name
    let rest := GetTextureTimes r.2 name k
    (r.1 :: rest.1, rest.2)

/-! ## Load operations as data, and call sequences -/

/-- The four resource categories, one per table. -/
inductive Category where
  | texture
  | shader
  | geometry
  | font
deriving DecidableEq, Repr

/-- A table entry of any category. -/
inductive Entry where
  | texture (p : Ptr)
  | shader (sh : Shader)
  | geometry (m : Mesh)
  | font (f : Option Font)
deriving DecidableEq, Repr

/-- The entry stored under `name` in the table of category `cat`, if any. -/
def lookup (s : State) (cat : Category) (name : String) : Option Entry :=
  match cat with
  | .texture => (s._textures.find name).map Entry.texture
  | .shader => (s._shaders.find name).map Entry.shader
  | .geometry => (s._geometries.find name).map Entry.geometry
  | .font => (s._fonts.find name).map Entry.font

/-- A call of one of the six load operations, with its arguments. -/
inductive Call where
  | AddTexture (texture : Ptr)
  | LoadTexture (sprite : P3D.Sprite)
  | LoadSet (set : P3D.Set) (time : Nat)
  | LoadShader (shader : P3D.Shader)
  | LoadGeometry (geo : P3D.Geometry)
  | AddFont (name : String) (font : Option Font)

/-- Running a load call. -/
def Call.apply (env : Env) (s : State) : Call → Except Fault State
  | .AddTexture texture => ResourceManager.AddTexture s texture
  | .LoadTexture sprite => .ok (ResourceManager.LoadTexture env s sprite)
  | .LoadSet set time => ResourceManager.LoadSet env s set time
  | .LoadShader shader => .ok (ResourceManager.LoadShader env s shader)
  | .LoadGeometry geo => .ok (ResourceManager.LoadGeometry env s geo)
  | .AddFont name font => .ok (ResourceManager.AddFont s name font)

/-- The table a load call writes to. -/
def Call.category : Call → Category
  | .AddTexture _ => .texture
  | .LoadTexture _ => .texture
  | .LoadSet _ _ => .texture
  | .LoadShader _ => .shader
  | .LoadGeometry _ => .geometry
  | .AddFont _ _ => .font

/-- The asset name a load call stores under: the `GetName()` of its argument (read through the
pointer for `AddTexture`), or the `name` argument of `AddFont`. -/
def Call.key (s : State) : Call → Option String
  | .AddTexture texture => (s.heap.deref texture).map Texture.name
  | .LoadTexture sprite => some sprite.name
  | .LoadSet set _ => some set.name
  | .LoadShader shader => some shader.name
  | .LoadGeometry geo => some geo.name
  | .AddFont name _ => some name

/-- What happens between construction and a lookup: a load call on the manager, or the caller
creating a texture object of its own with `new Texture(...)` (to pass to `AddTexture`). -/
inductive Event where
  | call (c : Call)
  | alloc (t : Texture)

/-- Running one event. -/
def Event.apply (env : Env) (s : State) : Event → Except Fault State
  | .call c => c.apply env s
  | .alloc t => .ok { s with heap := (s.heap.alloc t).2 }

/-- Running a sequence of events, stopping at the first fault. -/
def run (env : Env) (s : State) : List Event → Except Fault State
  | [] => .ok s
  | e :: es =>
    match e.apply env s with
    | .error f => .error f
    | .ok s' => run env s' es

/-- The precondition under which a load call is defined: `AddTexture` needs a pointer to a live
texture object, `LoadSet` a set with at least one candidate; the other calls need nothing. -/
def Call.wellFormed (s : State) : Call → Bool
  | .AddTexture texture => (s.heap.deref texture).isSome
  | .LoadSet set _ => !set.textures.isEmpty
  | _ => true

/-- The texture object that `AddTexture` or `LoadTexture` makes the table entry point to:
the object behind the pointer argument, or the texture built from the sprite. -/
def Call.content (env : Env) (s : State) : Call → Option Texture
  | .AddTexture texture => s.heap.deref texture
  | .LoadTexture sprite => some (env.textureOfSprite sprite)
  | _ => none

end ResourceManager

/-! ## Sample collaborators and inputs, used to evaluate the definitions -/

namespace Sample

/-- A concrete environment: the constructors copy the chunk payload, `rand` is the identity
on seeds below `2 ^ 15`. -/
def env : Env where
  newTexture := ⟨"", 0, 0, Format.other 0, []⟩
  textureOfSprite := fun sp => ⟨sp.name, 1, 1, Format.RGBA8, sp.payload⟩
  textureOfP3D := fun t => ⟨t.name, 1, 1, Format.RGBA8, t.payload⟩
  shaderOf := fun sh => ⟨"T", 0, sh.payload⟩
  meshOf := fun g => ⟨g.payload⟩
  rand := fun seed => seed % 2 ^ 15
  rand_lt := fun seed => Nat.lt_of_lt_of_le (Nat.mod_lt seed (by decide)) (by decide)

/-- The state right after construction on the empty heap. -/
def s0 : State := ResourceManager.construct env []

/-- A set with three candidates. -/
def abc : P3D.Set := ⟨"set", [⟨"a", [1]⟩, ⟨"b", [2]⟩, ⟨"c", [3]⟩]⟩

/-- A call sequence after construction: a sprite load, a caller-made texture added by pointer,
a set load and a shader load. -/
def events : List ResourceManager.Event :=
  [.call (.LoadTexture ⟨"a", [1]⟩), .alloc ⟨"b", 2, 2, Format.RGBA8, [5]⟩,
   .call (.AddTexture 3), .call (.LoadSet abc 7), .call (.LoadShader ⟨"sh", [9]⟩)]

/-- The state reached by `events` from `s0`. -/
def loaded : State :=
  match ResourceManager.run env s0 events with
  | .ok s => s
  | .error _ => s0

/-- A program heap that already holds a caller-made texture named `T`, at address `1`. -/
def heapT : Heap := [⟨"T", 4, 4, Format.RGBA8, [7]⟩]

/-- The state right after construction on `heapT`: no table entry yet. -/
def sT : State := ResourceManager.construct env heapT

/-- The state `sT` after `AddTexture` of the pointer `1`. -/
def sTA : State :=
  match ResourceManager.AddTexture sT 1 with
  | .ok s => s
  | .error _ => sT

/-- The state `s0` after `AddFont("f", nullptr)`: an empty font pointer stored under `f`. -/
def sF : State := ResourceManager.AddFont s0 "f" none

end Sample

/-! ## Table lemmas -/

theorem keys_assignEntry {V : Type} (l : List (String × V)) (k : String) (v : V) :
    (assignEntry l k v).map Prod.fst =
      if k ∈ l.map Prod.fst then l.map Prod.fst else l.map Prod.fst ++ [k] := by
  induction l with
  | nil => simp [assignEntry]
  | cons hd tl ih =>
    obtain ⟨k', v'⟩ := hd
    by_cases h : k' = k
    · subst h; simp [assignEntry]
    · have h' : ¬ k = k' := fun e => h e.symm
      simp only [assignEntry, h, if_false, List.map_cons, ih, List.mem_cons, h', false_or]
      split <;> simp

theorem findEntry_assignEntry_same {V : Type} (l : List (String × V)) (k : String) (v : V) :
    findEntry (assignEntry l k v) k = some v := by
  induction l with
  | nil => simp [assignEntry, findEntry]
  | cons hd tl ih =>
    obtain ⟨k', v'⟩ := hd
    by_cases h : k' = k
    · simp [assignEntry, findEntry, h]
    · simp [assignEntry, findEntry, h, ih]

theorem findEntry_assignEntry_ne {V : Type} (l : List (String × V)) (k k' : String) (v : V)
    (hne : k' ≠ k) : findEntry (assignEntry l k v) k' = findEntry l k' := by
  induction l with
  | nil =>
    have : ¬ k = k' := fun e => hne e.symm
    simp [assignEntry, findEntry, this]
  | cons hd tl ih =>
    obtain ⟨k₀, v₀⟩ := hd
    by_cases h : k₀ = k
    · subst h
      have : ¬ k₀ = k' := fun e => hne e.symm
      simp [assignEntry, findEntry, this]
    · by_cases h2 : k₀ = k'
      · subst h2
        simp [assignEntry, findEntry, h]
      · simp [assignEntry, findEntry, h, h2, ih]

theorem findEntry_eq_none_iff {V : Type} (l : List (String × V)) (k : String) :
    findEntry l k = none ↔ k ∉ l.map Prod.fst := by
  induction l with
  | nil => simp [findEntry]
  | cons hd tl ih =>
    obtain ⟨k', v'⟩ := hd
    by_cases h : k' = k
    · simp [findEntry, h]
    · have h' : ¬ k = k' := fun e => h e.symm
      simp [findEntry, h, h', ih]

theorem length_assignEntry {V : Type} (l : List (String × V)) (k : String) (v : V) :
    (assignEntry l k v).length = if k ∈ l.map Prod.fst then l.length else l.length + 1 := by
  have := congrArg List.length (keys_assignEntry l k v)
  rw [List.length_map] at this
  rw [this]
  split <;> simp

namespace Table

theorem ext_entries {V : Type} {a b : Table V} (h : a.entries = b.entries) : a = b := by
  cases a; cases b; cases h; rfl

theorem find_assign_same {V : Type} (t : Table V) (k : String) (v : V) :
    (t.assign k v).find k = some v :=
  findEntry_assignEntry_same t.entries k v

theorem find_assign_ne {V : Type} (t : Table V) (k k' : String) (v : V) (hne : k' ≠ k) :
    (t.assign k v).find k' = t.find k' :=
  findEntry_assignEntry_ne t.entries k k' v hne

theorem find_eq_none_iff {V : Type} (t : Table V) (k : String) :
    t.find k = none ↔ k ∉ t.keys :=
  findEntry_eq_none_iff t.entries k

theorem mem_keys_iff {V : Type} (t : Table V) (k : String) :
    k ∈ t.keys ↔ ∃ v, t.find k = some v := by
  have h := find_eq_none_iff t k
  constructor
  · intro hk
    cases hf : t.find k with
    | none => exact absurd hk (h.mp hf)
    | some v => exact ⟨v, rfl⟩
  · rintro ⟨v, hv⟩
    by_contra hk
    rw [h.mpr hk] at hv
    cases hv

theorem mem_keys_assign {V : Type} (t : Table V) (k k' : String) (v : V) :
    k' ∈ (t.assign k v).keys ↔ (k' = k ∨ k' ∈ t.keys) := by
  show k' ∈ (assignEntry t.entries k v).map Prod.fst ↔ _
  rw [keys_assignEntry]
  show k' ∈ (if k ∈ t.keys then t.keys else t.keys ++ [k]) ↔ _
  split
  · rename_i hk
    constructor
    · exact Or.inr
    · rintro (rfl | h)
      · exact hk
      · exact h
  · simp [or_comm]

theorem count_keys_assign {V : Type} (t : Table V) (k : String) (v : V) :
    (t.assign k v).keys.count k = 1 :=
  List.count_eq_one_of_mem (t.assign k v).nodup ((mem_keys_assign t k k v).mpr (Or.inl rfl))

theorem size_assign {V : Type} (t : Table V) (k : String) (v : V) :
    (t.assign k v).size = if k ∈ t.keys then t.size else t.size + 1 :=
  length_assignEntry t.entries k v

theorem size_assign_assign {V : Type} (t : Table V) (k : String) (a b : V) :
    ((t.assign k a).assign k b).size = (t.assign k a).size := by
  rw [size_assign, if_pos ((mem_keys_assign t k k a).mpr (Or.inl rfl))]

end Table

/-! ## Heap and integer lemmas -/

theorem Heap.deref_eq_some_iff (h : Heap) (p : Ptr) (t : Texture) :
    h.deref p = some t ↔ p ≠ 0 ∧ h[p - 1]? = some t := by
  unfold Heap.deref
  by_cases hp : p = 0 <;> simp [hp]

theorem Heap.deref_alloc_of_deref (h : Heap) (t' : Texture) (p : Ptr) (t : Texture)
    (hd : h.deref p = some t) : (h.alloc t').2.deref p = some t := by
  rw [Heap.deref_eq_some_iff] at hd ⊢
  refine ⟨hd.1, ?_⟩
  have hlt : p - 1 < h.length := by
    rcases List.getElem?_eq_some.mp hd.2 with ⟨hlt, _⟩
    exact hlt
  show (h ++ [t'])[p - 1]? = some t
  rw [List.getElem?_append_left hlt]
  exact hd.2

theorem Heap.deref_alloc_new (h : Heap) (t : Texture) :
    (h.alloc t).2.deref (h.alloc t).1 = some t := by
  rw [Heap.deref_eq_some_iff]
  refine ⟨Nat.succ_ne_zero _, ?_⟩
  show (h ++ [t])[h.length + 1 - 1]? = some t
  simp

theorem Heap.alloc_ne_null (h : Heap) (t : Texture) : (h.alloc t).1 ≠ 0 :=
  Nat.succ_ne_zero _

theorem Heap.deref_update_same (h : Heap) (p : Ptr) (f : Texture → Texture) (t : Texture)
    (hd : h.deref p = some t) : (h.update p f).deref p = some (f t) := by
  unfold Heap.update
  rw [hd]
  rw [Heap.deref_eq_some_iff] at hd ⊢
  refine ⟨hd.1, ?_⟩
  have hlt : p - 1 < h.length := by
    rcases List.getElem?_eq_some.mp hd.2 with ⟨hlt, _⟩
    exact hlt
  show (h.set (p - 1) (f t))[p - 1]? = some (f t)
  simp [hlt]

theorem toInt32_of_lt (x : Nat) (hx : x < 2 ^ 31) : toInt32 x = (x : Int) := by
  unfold toInt32
  have h : (x + 2 ^ 31) % 2 ^ 32 = x + 2 ^ 31 := Nat.mod_eq_of_lt (by omega)
  rw [h]
  push_cast
  omega

theorem toSizeT_natCast (x : Nat) (hx : x < 2 ^ 31) : toSizeT (x : Int) = x := by
  unfold toSizeT
  have h : ((x : Int) % 2 ^ 64) = (x : Int) := Int.emod_eq_of_lt (by omega) (by omega)
  rw [h]
  exact Int.toNat_natCast x

namespace ResourceManager

/-! ## Construction and the fallback texture -/

theorem construct_errorTexture (env : Env) (heap : Heap) :
    (construct env heap)._errorTexture = heap.length + 1 := rfl

theorem construct_deref_errorTexture (env : Env) (heap : Heap) :
    (construct env heap).heap.deref (construct env heap)._errorTexture =
      some (env.newTexture.Create 2 2 Format.RGBA8 errorTextureBytes) := by
  show ((heap.alloc env.newTexture).2.update (heap.alloc env.newTexture).1 _).deref
      (heap.alloc env.newTexture).1 = _
  exact Heap.deref_update_same _ _ _ _ (Heap.deref_alloc_new heap env.newTexture)

/-! ## Success of the load operations -/

theorem LoadSet.idx_of_ne_nil (env : Env) (set : P3D.Set) (time : Nat)
    (hne : set.textures ≠ []) :
    LoadSet.idx env set time =
      .ok ((env.rand (toUInt32 time) % set.textures.length : Nat) : Int) := by
  have hlen : set.textures.length ≠ 0 := fun h => hne (List.length_eq_zero.mp h)
  have hpos : 0 < set.textures.length := Nat.pos_of_ne_zero hlen
  have hlt : env.rand (toUInt32 time) % set.textures.length < 2 ^ 31 :=
    Nat.lt_of_le_of_lt (Nat.mod_le _ _) (env.rand_lt _)
  unfold LoadSet.idx
  simp only [hlen, if_false]
  rw [toInt32_of_lt _ hlt]

theorem vectorAt_natCast {α : Type} (v : List α) (i : Nat) (hi : i < v.length)
    (hsmall : i < 2 ^ 31) : vectorAt v (i : Int) = .ok (v.get ⟨i, hi⟩) := by
  unfold vectorAt
  rw [toSizeT_natCast i hsmall, List.getElem?_eq_getElem hi]
  rfl

theorem LoadSet_of_ne_nil (env : Env) (s : State) (set : P3D.Set) (time : Nat)
    (hne : set.textures ≠ []) :
    ∃ (hi : env.rand (toUInt32 time) % set.textures.length < set.textures.length),
      LoadSet env s set time =
        .ok { s with
              heap := (s.heap.alloc (env.textureOfP3D (set.textures.get ⟨_, hi⟩))).2
              _textures := s._textures.assign set.name
                (s.heap.alloc (env.textureOfP3D (set.textures.get ⟨_, hi⟩))).1 } := by
  have hlen : set.textures.length ≠ 0 := fun h => hne (List.length_eq_zero.mp h)
  have hi : env.rand (toUInt32 time) % set.textures.length < set.textures.length :=
    Nat.mod_lt _ (Nat.pos_of_ne_zero hlen)
  have hlt : env.rand (toUInt32 time) % set.textures.length < 2 ^ 31 :=
    Nat.lt_of_le_of_lt (Nat.mod_le _ _) (env.rand_lt _)
  refine ⟨hi, ?_⟩
  unfold LoadSet
  rw [LoadSet.idx_of_ne_nil env set time hne]
  simp only [vectorAt_natCast _ _ hi hlt]

theorem LoadSet_congr_seed (env : Env) (s : State) (set : P3D.Set) (time1 time2 : Nat)
    (h : toUInt32 time1 = toUInt32 time2) :
    LoadSet env s set time1 = LoadSet env s set time2 := by
  unfold LoadSet LoadSet.idx
  rw [h]

/-! ## Frame of one event -/

theorem AddTexture_of_deref (s : State) (texture : Ptr) (t : Texture)
    (h : s.heap.deref texture = some t) :
    AddTexture s texture = .ok { s with _textures := s._textures.assign t.name texture } := by
  unfold AddTexture
  rw [h]

theorem AddTexture_eq_ok (s : State) (texture : Ptr) (s' : State)
    (h : AddTexture s texture = .ok s') :
    ∃ t, s.heap.deref texture = some t ∧
      s' = { s with _textures := s._textures.assign t.name texture } := by
  unfold AddTexture at h
  cases hd : s.heap.deref texture with
  | none => rw [hd] at h; cases h
  | some t =>
    rw [hd] at h
    refine ⟨t, rfl, ?_⟩
    injection h with h
    exact h.symm

theorem LoadSet_eq_ok (env : Env) (s : State) (set : P3D.Set) (time : Nat) (s' : State)
    (h : LoadSet env s set time = .ok s') :
    ∃ candidate, candidate ∈ set.textures ∧
      s' = { s with
             heap := (s.heap.alloc (env.textureOfP3D candidate)).2
             _textures := s._textures.assign set.name
               (s.heap.alloc (env.textureOfP3D candidate)).1 } := by
  by_cases hne : set.textures = []
  · unfold LoadSet LoadSet.idx at h
    simp [hne] at h
  · obtain ⟨hi, hok⟩ := LoadSet_of_ne_nil env s set time hne
    rw [hok] at h
    injection h with h
    exact ⟨_, List.get_mem _ _ _, h.symm⟩

theorem call_apply_frame (env : Env) (s : State) (c : Call) (s' : State)
    (h : c.apply env s = .ok s') :
    s'._errorTexture = s._errorTexture ∧
      ∀ p t, s.heap.deref p = some t → s'.heap.deref p = some t := by
  cases c with
  | AddTexture texture =>
    obtain ⟨t, _, rfl⟩ := AddTexture_eq_ok s texture s' h
    exact ⟨rfl, fun _ _ hd => hd⟩
  | LoadTexture sprite =>
    injection h with h
    subst h
    exact ⟨rfl, fun p t hd => Heap.deref_alloc_of_deref _ _ p t hd⟩
  | LoadSet set time =>
    obtain ⟨cand, _, rfl⟩ := LoadSet_eq_ok env s set time s' h
    exact ⟨rfl, fun p t hd => Heap.deref_alloc_of_deref _ _ p t hd⟩
  | LoadShader shader =>
    injection h with h
    subst h
    exact ⟨rfl, fun _ _ hd => hd⟩
  | LoadGeometry geo =>
    injection h with h
    subst h
    exact ⟨rfl, fun _ _ hd => hd⟩
  | AddFont name font =>
    injection h with h
    subst h
    exact ⟨rfl, fun _ _ hd => hd⟩

theorem event_apply_frame (env : Env) (s : State) (e : Event) (s' : State)
    (h : e.apply env s = .ok s') :
    s'._errorTexture = s._errorTexture ∧
      ∀ p t, s.heap.deref p = some t → s'.heap.deref p = some t := by
  cases e with
  | call c => exact call_apply_frame env s c s' h
  | alloc t0 =>
    injection h with h
    subst h
    exact ⟨rfl, fun p t hd => Heap.deref_alloc_of_deref _ _ p t hd⟩

theorem run_frame (env : Env) (evs : List Event) :
    ∀ (s s' : State), run env s evs = .ok s' →
      s'._errorTexture = s._errorTexture ∧
        ∀ p t, s.heap.deref p = some t → s'.heap.deref p = some t := by
  induction evs with
  | nil =>
    intro s s' h
    injection h with h
    subst h
    exact ⟨rfl, fun _ _ hd => hd⟩
  | cons e es ih =>
    intro s s' h
    unfold run at h
    cases he : e.apply env s with
    | error f => rw [he] at h; cases h
    | ok s1 =>
      rw [he] at h
      obtain ⟨h1, h2⟩ := event_apply_frame env s e s1 he
      obtain ⟨h3, h4⟩ := ih s1 s' h
      exact ⟨h3.trans h1, fun p t hd => h4 p t (h2 p t hd)⟩

/-! ## Lookups in closed form -/

theorem GetTexture_fst (s : State) (name : String) :
    (GetTexture s name).1 = (s._textures.find name).getD s._errorTexture := by
  unfold GetTexture
  cases s._textures.find name <;> rfl

theorem GetTexture_snd (s : State) (name : String) : (GetTexture s name).2 = s := by
  unfold GetTexture
  cases s._textures.find name <;> rfl

theorem GetShader_of_find_none (s : State) (name : String)
    (h : s._shaders.find name = none) : GetShader s name = (none, s) := by
  unfold GetShader
  rw [h]

theorem GetShader_of_find_some (s : State) (name : String) (sh : Shader)
    (h : s._shaders.find name = some sh) :
    GetShader s name =
      (some (sh.SetDiffuseTexture
          ((s._textures.find sh.GetDiffuseTextureName).getD s._errorTexture)),
        { s with
          _shaders := s._shaders.assign name (sh.SetDiffuseTexture
            ((s._textures.find sh.GetDiffuseTextureName).getD s._errorTexture)) }) := by
  unfold GetShader
  rw [h]
  dsimp only
  cases s._textures.find sh.GetDiffuseTextureName <;> rfl

/-! ## Texture loads in closed form -/

theorem Call.apply_of_content (env : Env) (s : State) (c : Call) (n : String) (t : Texture)
    (hk : c.key s = some n) (hc : c.content env s = some t) :
    ∃ s' p, c.apply env s = .ok s' ∧ s'._textures = s._textures.assign n p ∧
      s'.heap.deref p = some t := by
  cases c with
  | AddTexture texture =>
    have hd : s.heap.deref texture = some t := hc
    have hn : t.name = n := by
      have hk' : (s.heap.deref texture).map Texture.name = some n := hk
      rw [hd] at hk'
      exact Option.some.inj hk'
    refine ⟨{ s with _textures := s._textures.assign n texture }, texture, ?_, rfl, hd⟩
    rw [← hn]
    exact AddTexture_of_deref s texture t hd
  | LoadTexture sprite =>
    have hn : sprite.name = n := Option.some.inj hk
    have ht : env.textureOfSprite sprite = t := Option.some.inj hc
    refine ⟨ResourceManager.LoadTexture env s sprite,
      (s.heap.alloc (env.textureOfSprite sprite)).1, rfl, ?_, ?_⟩
    · rw [← hn]; rfl
    · rw [← ht]; exact Heap.deref_alloc_new _ _
  | LoadSet set time => cases hc
  | LoadShader shader => cases hc
  | LoadGeometry geo => cases hc
  | AddFont name font => cases hc

/-! ## Frame of an assignment to one table -/

theorem lookup_of_texture_assign (s s' : State) (n : String) (v : Ptr)
    (h : s'._textures = s._textures.assign n v)
    (hshader : s'._shaders = s._shaders)
    (hgeometry : s'._geometries = s._geometries)
    (hfont : s'._fonts = s._fonts) :
    (∀ cat m, (cat ≠ Category.texture ∨ m ≠ n) → lookup s' cat m = lookup s cat m) ∧
    (∀ cat m, (lookup s cat m).isSome = true → (lookup s' cat m).isSome = true) ∧
    (lookup s' Category.texture n).isSome = true := by
  have h1 : ∀ cat m, (cat ≠ Category.texture ∨ m ≠ n) → lookup s' cat m = lookup s cat m := by
    intro cat m hne
    cases cat <;> simp only [lookup, h, hshader, hgeometry, hfont]
    rcases hne with hc | hm
    · exact absurd rfl hc
    · rw [Table.find_assign_ne _ _ _ _ hm]
  have h3 : (lookup s' Category.texture n).isSome = true := by
    simp only [lookup, h, Table.find_assign_same]
    rfl
  refine ⟨h1, ?_, h3⟩
  intro cat m hsome
  by_cases hc : cat = Category.texture
  · by_cases hm : m = n
    · subst hc
      subst hm
      exact h3
    · rw [h1 cat m (Or.inr hm)]
      exact hsome
  · rw [h1 cat m (Or.inl hc)]
    exact hsome

theorem lookup_of_shader_assign (s s' : State) (n : String) (v : Shader)
    (h : s'._shaders = s._shaders.assign n v)
    (htexture : s'._textures = s._textures)
    (hgeometry : s'._geometries = s._geometries)
    (hfont : s'._fonts = s._fonts) :
    (∀ cat m, (cat ≠ Category.shader ∨ m ≠ n) → lookup s' cat m = lookup s cat m) ∧
    (∀ cat m, (lookup s cat m).isSome = true → (lookup s' cat m).isSome = true) ∧
    (lookup s' Category.shader n).isSome = true := by
  have h1 : ∀ cat m, (cat ≠ Category.shader ∨ m ≠ n) → lookup s' cat m = lookup s cat m := by
    intro cat m hne
    cases cat <;> simp only [lookup, h, htexture, hgeometry, hfont]
    rcases hne with hc | hm
    · exact absurd rfl hc
    · rw [Table.find_assign_ne _ _ _ _ hm]
  have h3 : (lookup s' Category.shader n).isSome = true := by
    simp only [lookup, h, Table.find_assign_same]
    rfl
  refine ⟨h1, ?_, h3⟩
  intro cat m hsome
  by_cases hc : cat = Category.shader
  · by_cases hm : m = n
    · subst hc
      subst hm
      exact h3
    · rw [h1 cat m (Or.inr hm)]
      exact hsome
  · rw [h1 cat m (Or.inl hc)]
    exact hsome

theorem lookup_of_geometry_assign (s s' : State) (n : String) (v : Mesh)
    (h : s'._geometries = s._geometries.assign n v)
    (htexture : s'._textures = s._textures)
    (hshader : s'._shaders = s._shaders)
    (hfont : s'._fonts = s._fonts) :
    (∀ cat m, (cat ≠ Category.geometry ∨ m ≠ n) → lookup s' cat m = lookup s cat m) ∧
    (∀ cat m, (lookup s cat m).isSome = true → (lookup s' cat m).isSome = true) ∧
    (lookup s' Category.geometry n).isSome = true := by
  have h1 : ∀ cat m, (cat ≠ Category.geometry ∨ m ≠ n) → lookup s' cat m = lookup s cat m := by
    intro cat m hne
    cases cat <;> simp only [lookup, h, htexture, hshader, hfont]
    rcases hne with hc | hm
    · exact absurd rfl hc
    · rw [Table.find_assign_ne _ _ _ _ hm]
  have h3 : (lookup s' Category.geometry n).isSome = true := by
    simp only [lookup, h, Table.find_assign_same]
    rfl
  refine ⟨h1, ?_, h3⟩
  intro cat m hsome
  by_cases hc : cat = Category.geometry
  · by_cases hm : m = n
    · subst hc
      subst hm
      exact h3
    · rw [h1 cat m (Or.inr hm)]
      exact hsome
  · rw [h1 cat m (Or.inl hc)]
    exact hsome

theorem lookup_of_font_assign (s s' : State) (n : String) (v : Option Font)
    (h : s'._fonts = s._fonts.assign n v)
    (htexture : s'._textures = s._textures)
    (hshader : s'._shaders = s._shaders)
    (hgeometry : s'._geometries = s._geometries) :
    (∀ cat m, (cat ≠ Category.font ∨ m ≠ n) → lookup s' cat m = lookup s cat m) ∧
    (∀ cat m, (lookup s cat m).isSome = true → (lookup s' cat m).isSome = true) ∧
    (lookup s' Category.font n).isSome = true := by
  have h1 : ∀ cat m, (cat ≠ Category.font ∨ m ≠ n) → lookup s' cat m = lookup s cat m := by
    intro cat m hne
    cases cat <;> simp only [lookup, h, htexture, hshader, hgeometry]
    rcases hne with hc | hm
    · exact absurd rfl hc
    · rw [Table.find_assign_ne _ _ _ _ hm]
  have h3 : (lookup s' Category.font n).isSome = true := by
    simp only [lookup, h, Table.find_assign_same]
    rfl
  refine ⟨h1, ?_, h3⟩
  intro cat m hsome
  by_cases hc : cat = Category.font
  · by_cases hm : m = n
    · subst hc
      subst hm
      exact h3
    · rw [h1 cat m (Or.inr hm)]
      exact hsome
  · rw [h1 cat m (Or.inl hc)]
    exact hsome

/-! ## Claims -/

/-- C1. Fallback law: in every state reached from construction by load calls (and caller-side
texture allocations), `GetTexture` on a name that is not a key of the texture table returns
the pointer `_errorTexture` set at construction; it is not null and still points to the
2x2 texture created at construction. -/
theorem GetTexture_fallback (env : Env) (heap : Heap) (evs : List Event) (s : State)
    (name : String)
    (hrun : run env (construct env heap) evs = .ok s)
    (habsent : name ∉ s._textures.keys) :
    (GetTexture s name).1 = (construct env heap)._errorTexture ∧
    (GetTexture s name).1 ≠ 0 ∧
    ∃ t, s.heap.deref (GetTexture s name).1 = some t ∧
      (construct env heap).heap.deref (construct env heap)._errorTexture = some t ∧
      t.width = 2 ∧ t.height = 2 := by
  obtain ⟨hptr, hheap⟩ := run_frame env evs _ s hrun
  have hfind : s._textures.find name = none := (Table.find_eq_none_iff _ _).mpr habsent
  have hget : (GetTexture s name).1 = (construct env heap)._errorTexture := by
    unfold GetTexture
    rw [hfind]
    exact hptr
  refine ⟨hget, ?_, ?_⟩
  · rw [hget, construct_errorTexture]
    exact Nat.succ_ne_zero _
  · refine ⟨_, ?_, construct_deref_errorTexture env heap, rfl, rfl⟩
    rw [hget]
    exact hheap _ _ (construct_deref_errorTexture env heap)

/-- C1 on the sample call sequence, looking up a name that was never loaded. -/
theorem GetTexture_fallback_witness :
    run Sample.env (construct Sample.env []) Sample.events = .ok Sample.loaded ∧
    "missing" ∉ Sample.loaded._textures.keys ∧
    ((GetTexture Sample.loaded "missing").1 = (construct Sample.env [])._errorTexture ∧
     (GetTexture Sample.loaded "missing").1 ≠ 0 ∧
     ∃ t, Sample.loaded.heap.deref (GetTexture Sample.loaded "missing").1 = some t ∧
       (construct Sample.env []).heap.deref (construct Sample.env [])._errorTexture = some t ∧
       t.width = 2 ∧ t.height = 2) :=
  ⟨rfl, by decide,
    GetTexture_fallback Sample.env [] Sample.events Sample.loaded "missing" rfl (by decide)⟩

/-- C2. Lazy resolution: for a name that is a key of the shader table, `GetShader` returns the
stored shader with its diffuse texture bound to what `GetTexture` returns for the shader's
stored diffuse-texture name, in the state before and in the state after the call: the pointer
stored under that name, or `_errorTexture` when there is none.  The previous binding of the
shader plays no role. -/
theorem GetShader_binds_diffuse (s : State) (name : String) (sh : Shader)
    (hsh : s._shaders.find name = some sh) :
    ∃ sh', (GetShader s name).1 = some sh' ∧
      sh'.diffuseTexture = (GetTexture s sh.GetDiffuseTextureName).1 ∧
      sh'.diffuseTexture = (GetTexture (GetShader s name).2 sh.GetDiffuseTextureName).1 ∧
      sh'.diffuseTexture = (s._textures.find sh.GetDiffuseTextureName).getD s._errorTexture ∧
      sh' = sh.SetDiffuseTexture sh'.diffuseTexture ∧
      (GetShader s name).2._shaders.find name = some sh' := by
  rw [GetShader_of_find_some s name sh hsh]
  refine ⟨_, rfl, ?_, ?_, rfl, rfl, Table.find_assign_same _ _ _⟩
  · rw [GetTexture_fst]
    rfl
  · rw [GetTexture_fst]
    rfl

/-- C2 on the sample state, for the shader `sh` whose texture `T` is not loaded. -/
theorem GetShader_binds_diffuse_witness :
    Sample.loaded._shaders.find "sh" = some ⟨"T", 0, [9]⟩ ∧
    ∃ sh', (GetShader Sample.loaded "sh").1 = some sh' ∧
      sh'.diffuseTexture = (GetTexture Sample.loaded (Shader.GetDiffuseTextureName ⟨"T", 0, [9]⟩)).1 ∧
      sh'.diffuseTexture =
        (GetTexture (GetShader Sample.loaded "sh").2 (Shader.GetDiffuseTextureName ⟨"T", 0, [9]⟩)).1 ∧
      sh'.diffuseTexture =
        (Sample.loaded._textures.find (Shader.GetDiffuseTextureName ⟨"T", 0, [9]⟩)).getD
          Sample.loaded._errorTexture ∧
      sh' = Shader.SetDiffuseTexture ⟨"T", 0, [9]⟩ sh'.diffuseTexture ∧
      (GetShader Sample.loaded "sh").2._shaders.find "sh" = some sh' :=
  ⟨by decide, GetShader_binds_diffuse Sample.loaded "sh" ⟨"T", 0, [9]⟩ (by decide)⟩

/-- C5 (the code at the failing input). `LoadSet` on a set whose candidate list is empty does
not succeed: `std::rand() % 0` is evaluated and no entry is stored. -/
theorem LoadSet_empty_faults (env : Env) (s : State) (name : String) (time : Nat) :
    LoadSet env s ⟨name, []⟩ time = .error Fault.moduloByZero := rfl

/-- C6 (as amended). Not-found results: `GetShader` and `GetGeometry` return `nullptr` exactly
when the name is not a key of their table, and otherwise the stored entry (for `GetShader`, the
entry as stored after the rebinding of its diffuse texture).  `GetFont` returns `nullptr` when
the name is not a key and otherwise the stored pointer, so it returns `nullptr` exactly when the
name is not a key or the pointer stored under it is empty.  `GetGeometry` and `GetFont` leave
the state unchanged.  All three are total: no call faults, and none substitutes a fallback. -/
theorem Get_notFound_iff_absent (s : State) (name : String) :
    ((GetShader s name).1 = none ↔ name ∉ s._shaders.keys) ∧
    (GetShader s name).1 = (GetShader s name).2._shaders.find name ∧
    (GetShader s name).1 = (s._shaders.find name).map
      (fun sh => sh.SetDiffuseTexture (GetTexture s sh.GetDiffuseTextureName).1) ∧
    ((GetGeometry s name).1 = none ↔ name ∉ s._geometries.keys) ∧
    (GetGeometry s name).1 = s._geometries.find name ∧
    (GetGeometry s name).2 = s ∧
    ((GetFont s name).1 = none ↔ (name ∉ s._fonts.keys ∨ s._fonts.find name = some none)) ∧
    (GetFont s name).1 = (s._fonts.find name).join ∧
    (GetFont s name).2 = s := by
  have hg : (GetGeometry s name).1 = s._geometries.find name ∧ (GetGeometry s name).2 = s := by
    unfold GetGeometry
    cases s._geometries.find name <;> exact ⟨rfl, rfl⟩
  have hf : (GetFont s name).1 = (s._fonts.find name).join ∧ (GetFont s name).2 = s := by
    unfold GetFont
    cases s._fonts.find name <;> exact ⟨rfl, rfl⟩
  refine ⟨?_, ?_, ?_, ?_, hg.1, hg.2, ?_, hf.1, hf.2⟩
  · rw [← Table.find_eq_none_iff]
    unfold GetShader
    cases s._shaders.find name <;> simp
  · unfold GetShader
    cases hs : s._shaders.find name with
    | none => exact hs.symm
    | some sh => exact (Table.find_assign_same _ _ _).symm
  · cases hs : s._shaders.find name with
    | none => rw [GetShader_of_find_none s name hs]; rfl
    | some sh =>
      rw [GetShader_of_find_some s name sh hs]
      show some _ = some (sh.SetDiffuseTexture (GetTexture s sh.GetDiffuseTextureName).1)
      rw [GetTexture_fst]
  · rw [hg.1, Table.find_eq_none_iff]
  · rw [hf.1, ← Table.find_eq_none_iff]
    cases hfind : s._fonts.find name with
    | none => simp
    | some f => cases f <;> simp

/-- C6 (counterexample). After `AddFont("f", nullptr)` the name `f` is a key of the font table and
`GetFont("f")` returns `nullptr`: a null result for a name that is a key. -/
theorem GetFont_null_for_present_key :
    "f" ∈ Sample.sF._fonts.keys ∧ (GetFont Sample.sF "f").1 = none ∧
    ¬ ((GetFont Sample.sF "f").1 = none ↔ "f" ∉ Sample.sF._fonts.keys) := by
  decide

/-- C9 (the code evaluated). The byte vector that `createErrorTexture` hands to
`Texture::Create` is built by the range constructor from the four `GLuint` pixels, one byte per
pixel: it is `DC 00 00 DC`, 4 bytes long, not the `2 * 2 * 4 = 16` bytes of a 2x2 RGBA8 image. -/
theorem createErrorTexture_bytes (env : Env) (heap : Heap) :
    errorTextureBytes = [0xDC, 0x00, 0x00, 0xDC] ∧
    ∃ t, (construct env heap).heap.deref (construct env heap)._errorTexture = some t ∧
      t.width = 2 ∧ t.height = 2 ∧ t.format = Format.RGBA8 ∧
      t.data = errorTextureBytes ∧ t.data.length = 4 ∧
      t.data.length ≠ t.width * t.height * 4 :=
  ⟨by decide, _, construct_deref_errorTexture env heap, rfl, rfl, rfl, rfl,
    (by decide : errorTextureBytes.length = 4),
    (by decide : errorTextureBytes.length ≠ 2 * 2 * 4)⟩

/-- C3. Lazy binding: in a state with no texture stored under `T`, after `LoadShader(S)` of a
shader whose diffuse-texture name is `T`, `GetShader(S.name)` returns the shader with its
diffuse-texture pointer equal to the fallback pointer `_errorTexture`; after a following load of
a texture named `T` and no further `LoadShader`, the next `GetShader(S.name)` returns the same
shader entry with its diffuse-texture pointer equal to the pointer now stored under `T`, which
points to the loaded texture.  The load is `LoadTexture` of any sprite named `T`, or
`AddTexture` of any pointer `X` to a live texture named `T` (on any heap the caller has made in
between). -/
theorem GetShader_lazy_binding (env : Env) (s : State) (S : P3D.Shader) (T : String)
    (sprite : P3D.Sprite)
    (hT : s._textures.find T = none)
    (hS : (env.shaderOf S).diffuseTextureName = T)
    (hsprite : sprite.name = T) :
    ∃ sh1 s1,
      GetShader (LoadShader env s S) S.name = (some sh1, s1) ∧
      sh1.diffuseTexture = s._errorTexture ∧
      sh1.diffuseTexture = (GetTexture (LoadShader env s S) T).1 ∧
      sh1 = { env.shaderOf S with diffuseTexture := s._errorTexture } ∧
      (∃ x sh2, (GetShader (LoadTexture env s1 sprite) S.name).1 = some sh2 ∧
        sh2.diffuseTexture = x ∧
        sh2 = { sh1 with diffuseTexture := x } ∧
        (GetTexture (LoadTexture env s1 sprite) T).1 = x ∧
        (LoadTexture env s1 sprite).heap.deref x = some (env.textureOfSprite sprite)) ∧
      (∀ (heap : Heap) (X : Ptr) (tex : Texture),
        heap.deref X = some tex → tex.name = T →
        ∃ s2 sh2, AddTexture { s1 with heap := heap } X = .ok s2 ∧
          (GetShader s2 S.name).1 = some sh2 ∧
          sh2.diffuseTexture = X ∧
          sh2 = { sh1 with diffuseTexture := X } ∧
          (GetTexture s2 T).1 = X ∧
          s2.heap.deref X = some tex) := by
  have h1 : (LoadShader env s S)._shaders.find S.name = some (env.shaderOf S) :=
    Table.find_assign_same _ _ _
  have hT1 : (LoadShader env s S)._textures.find (env.shaderOf S).GetDiffuseTextureName = none := by
    show s._textures.find (env.shaderOf S).diffuseTextureName = none
    rw [hS]; exact hT
  have hg1 := GetShader_of_find_some (LoadShader env s S) S.name (env.shaderOf S) h1
  rw [hT1] at hg1
  have key : ∀ (st : State) (p : Ptr),
      st._shaders.find S.name = some { env.shaderOf S with diffuseTexture := s._errorTexture } →
      st._textures.find T = some p →
      (GetShader st S.name).1 =
        some { env.shaderOf S with diffuseTexture := p } := by
    intro st p hsh htex
    rw [GetShader_of_find_some st S.name _ hsh]
    have hname : Shader.GetDiffuseTextureName
        { env.shaderOf S with diffuseTexture := s._errorTexture } = T := hS
    rw [hname, htex]
    rfl
  refine ⟨{ env.shaderOf S with diffuseTexture := s._errorTexture },
    { LoadShader env s S with
      _shaders := (LoadShader env s S)._shaders.assign S.name
        { env.shaderOf S with diffuseTexture := s._errorTexture } },
    hg1, rfl, ?_, rfl, ?_, ?_⟩
  · rw [GetTexture_fst]
    show s._errorTexture = (s._textures.find T).getD s._errorTexture
    rw [hT]
    rfl
  · refine ⟨(s.heap.alloc (env.textureOfSprite sprite)).1, _,
      key _ (s.heap.alloc (env.textureOfSprite sprite)).1 (Table.find_assign_same _ _ _) ?_,
      rfl, rfl, ?_, Heap.deref_alloc_new _ _⟩
    · show (s._textures.assign sprite.name _).find T = _
      rw [hsprite]
      exact Table.find_assign_same _ _ _
    · rw [GetTexture_fst]
      show ((s._textures.assign sprite.name _).find T).getD _ = _
      rw [hsprite, Table.find_assign_same]
      rfl
  · intro heap X tex hX hname
    subst hname
    refine ⟨_, _, AddTexture_of_deref _ X tex hX,
      key _ X (Table.find_assign_same _ _ _) (Table.find_assign_same _ _ _), rfl, rfl, ?_, hX⟩
    rw [GetTexture_fst]
    show ((s._textures.assign tex.name X).find tex.name).getD _ = _
    rw [Table.find_assign_same]
    rfl

/-- C3 on the freshly constructed sample manager `s0`: a shader naming `T`, then either a
sprite named `T`, or a texture named `T` that the caller creates at address `2` and adds by
pointer. -/
theorem GetShader_lazy_binding_witness :
    Sample.s0._textures.find "T" = none ∧
    (Sample.env.shaderOf ⟨"sh", [9]⟩).diffuseTextureName = "T" ∧
    ∃ sh1 s1,
      GetShader (LoadShader Sample.env Sample.s0 ⟨"sh", [9]⟩) "sh" = (some sh1, s1) ∧
      sh1.diffuseTexture = Sample.s0._errorTexture ∧
      sh1.diffuseTexture = (GetTexture (LoadShader Sample.env Sample.s0 ⟨"sh", [9]⟩) "T").1 ∧
      sh1 = { Sample.env.shaderOf ⟨"sh", [9]⟩ with diffuseTexture := Sample.s0._errorTexture } ∧
      (∃ x sh2, (GetShader (LoadTexture Sample.env s1 ⟨"T", [4]⟩) "sh").1 = some sh2 ∧
        sh2.diffuseTexture = x ∧
        sh2 = { sh1 with diffuseTexture := x } ∧
        (GetTexture (LoadTexture Sample.env s1 ⟨"T", [4]⟩) "T").1 = x ∧
        (LoadTexture Sample.env s1 ⟨"T", [4]⟩).heap.deref x =
          some (Sample.env.textureOfSprite ⟨"T", [4]⟩)) ∧
      (∃ s2 sh2,
        AddTexture
          { s1 with heap := (Heap.alloc Sample.s0.heap ⟨"T", 4, 4, Format.RGBA8, [7]⟩).2 } 2 =
            .ok s2 ∧
        (GetShader s2 "sh").1 = some sh2 ∧
        sh2.diffuseTexture = 2 ∧
        sh2 = { sh1 with diffuseTexture := 2 } ∧
        (GetTexture s2 "T").1 = 2 ∧
        s2.heap.deref 2 = some ⟨"T", 4, 4, Format.RGBA8, [7]⟩) := by
  refine ⟨by decide, rfl, ?_⟩
  obtain ⟨sh1, s1, h1, h2, h3, h4, h5, h6⟩ :=
    GetShader_lazy_binding Sample.env Sample.s0 ⟨"sh", [9]⟩ "T" ⟨"T", [4]⟩ (by decide) rfl rfl
  exact ⟨sh1, s1, h1, h2, h3, h4, h5,
    h6 (Heap.alloc Sample.s0.heap ⟨"T", 4, 4, Format.RGBA8, [7]⟩).2 2
      ⟨"T", 4, 4, Format.RGBA8, [7]⟩ (by decide) rfl⟩

/-- C4. Overwrite: if a texture `A` named `n` has been loaded (state `sA`) and a texture `B` with
the same name and different content is loaded next, each through `LoadTexture` or `AddTexture`,
the second load succeeds and afterwards `GetTexture(n)` points to `B` and not to `A`; the
texture table has the size it had after loading `A` alone, and `n` occurs once among its
keys. -/
theorem texture_reload_overwrites (env : Env) (s sA : State) (cA cB : Call) (n : String)
    (A B : Texture)
    (hkA : cA.key s = some n) (hcA : cA.content env s = some A)
    (hA : cA.apply env s = .ok sA)
    (hkB : cB.key sA = some n) (hcB : cB.content env sA = some B)
    (hAB : A ≠ B) :
    sA.heap.deref (GetTexture sA n).1 = some A ∧
    ∃ sB, cB.apply env sA = .ok sB ∧
      sB.heap.deref (GetTexture sB n).1 = some B ∧
      sB.heap.deref (GetTexture sB n).1 ≠ some A ∧
      sB._textures.size = sA._textures.size ∧
      sB._textures.keys.count n = 1 := by
  obtain ⟨sA', pA, hA', htA, hdA⟩ := Call.apply_of_content env s cA n A hkA hcA
  have hsA : sA' = sA := by
    rw [hA'] at hA
    injection hA
  subst hsA
  obtain ⟨sB, pB, hB, htB, hdB⟩ := Call.apply_of_content env sA' cB n B hkB hcB
  have hgA : (GetTexture sA' n).1 = pA := by
    rw [GetTexture_fst, htA, Table.find_assign_same]
    rfl
  have hgB : (GetTexture sB n).1 = pB := by
    rw [GetTexture_fst, htB, Table.find_assign_same]
    rfl
  refine ⟨by rw [hgA]; exact hdA, sB, hB, ?_, ?_, ?_, ?_⟩
  · rw [hgB]; exact hdB
  · rw [hgB, hdB]
    intro h
    exact hAB (Option.some.inj h).symm
  · rw [htB, htA]
    exact Table.size_assign_assign _ _ _ _
  · rw [htB]
    exact Table.count_keys_assign _ _ _

/-- C4 on the sample state `sT`: `AddTexture` of the texture `T` at address `1`, then `LoadTexture` of a sprite named `T`. -/
theorem texture_reload_overwrites_witness :
    Sample.sTA.heap.deref (GetTexture Sample.sTA "T").1 = some ⟨"T", 4, 4, Format.RGBA8, [7]⟩ ∧
    ∃ sB, (Call.LoadTexture ⟨"T", [2]⟩).apply Sample.env Sample.sTA = .ok sB ∧
      sB.heap.deref (GetTexture sB "T").1 = some ⟨"T", 1, 1, Format.RGBA8, [2]⟩ ∧
      sB.heap.deref (GetTexture sB "T").1 ≠ some ⟨"T", 4, 4, Format.RGBA8, [7]⟩ ∧
      sB._textures.size = Sample.sTA._textures.size ∧
      sB._textures.keys.count "T" = 1 :=
  texture_reload_overwrites Sample.env Sample.sT Sample.sTA (Call.AddTexture 1)
    (Call.LoadTexture ⟨"T", [2]⟩) "T" ⟨"T", 4, 4, Format.RGBA8, [7]⟩
    ⟨"T", 1, 1, Format.RGBA8, [2]⟩ (by decide) (by decide) rfl rfl rfl (by decide)

/-- C7. Candidate selection: with the random source a function of the seed, `LoadSet` on a set
with `n > 0` candidates computes the index `rand(seed) mod n`, which is below `n`; it
succeeds, and the pointer it stores under the set's name points to the texture built from the
candidate at that index, one of the set's own.  Two `LoadSet` calls on the same set whose
clock values give the same seed compute the same index and store a texture built from the same
candidate. -/
theorem LoadSet_selects_candidate (env : Env) (s1 s2 : State) (set : P3D.Set)
    (time1 time2 : Nat)
    (hne : set.textures ≠ [])
    (hseed : toUInt32 time1 = toUInt32 time2) :
    env.rand (toUInt32 time1) % set.textures.length < set.textures.length ∧
    LoadSet.idx env set time1 =
      .ok ((env.rand (toUInt32 time1) % set.textures.length : Nat) : Int) ∧
    LoadSet.idx env set time2 = LoadSet.idx env set time1 ∧
    ∃ candidate s1' s2' p1 p2,
      set.textures[env.rand (toUInt32 time1) % set.textures.length]? = some candidate ∧
      candidate ∈ set.textures ∧
      LoadSet env s1 set time1 = .ok s1' ∧
      s1'._textures.find set.name = some p1 ∧
      s1'.heap.deref p1 = some (env.textureOfP3D candidate) ∧
      LoadSet env s2 set time2 = .ok s2' ∧
      s2'._textures.find set.name = some p2 ∧
      s2'.heap.deref p2 = some (env.textureOfP3D candidate) := by
  obtain ⟨hi, h1⟩ := LoadSet_of_ne_nil env s1 set time1 hne
  obtain ⟨_, h2⟩ := LoadSet_of_ne_nil env s2 set time1 hne
  rw [LoadSet_congr_seed env s2 set time1 time2 hseed] at h2
  refine ⟨hi, LoadSet.idx_of_ne_nil env set time1 hne, ?_, ?_⟩
  · rw [LoadSet.idx_of_ne_nil env set time1 hne, LoadSet.idx_of_ne_nil env set time2 hne, hseed]
  · refine ⟨set.textures.get ⟨_, hi⟩, _, _,
      (s1.heap.alloc (env.textureOfP3D (set.textures.get ⟨_, hi⟩))).1,
      (s2.heap.alloc (env.textureOfP3D (set.textures.get ⟨_, hi⟩))).1,
      List.getElem?_eq_getElem hi, List.get_mem _ _ _, h1, ?_, ?_, h2, ?_, ?_⟩
    · exact Table.find_assign_same _ _ _
    · exact Heap.deref_alloc_new _ _
    · exact Table.find_assign_same _ _ _
    · exact Heap.deref_alloc_new _ _

/-- C7 on the three-candidate sample set, with two clock values that give the same seed. -/
theorem LoadSet_selects_candidate_witness :
    Sample.env.rand (toUInt32 7) % Sample.abc.textures.length < Sample.abc.textures.length ∧
    LoadSet.idx Sample.env Sample.abc 7 =
      .ok ((Sample.env.rand (toUInt32 7) % Sample.abc.textures.length : Nat) : Int) ∧
    LoadSet.idx Sample.env Sample.abc (7 + 2 ^ 32) = LoadSet.idx Sample.env Sample.abc 7 ∧
    ∃ candidate s1' s2' p1 p2,
      Sample.abc.textures[Sample.env.rand (toUInt32 7) % Sample.abc.textures.length]? =
        some candidate ∧
      candidate ∈ Sample.abc.textures ∧
      LoadSet Sample.env Sample.s0 Sample.abc 7 = .ok s1' ∧
      s1'._textures.find Sample.abc.name = some p1 ∧
      s1'.heap.deref p1 = some (Sample.env.textureOfP3D candidate) ∧
      LoadSet Sample.env Sample.loaded Sample.abc (7 + 2 ^ 32) = .ok s2' ∧
      s2'._textures.find Sample.abc.name = some p2 ∧
      s2'.heap.deref p2 = some (Sample.env.textureOfP3D candidate) :=
  LoadSet_selects_candidate Sample.env Sample.s0 Sample.loaded Sample.abc 7 (7 + 2 ^ 32)
    (by decide) (by decide)

/-- C8. Resolution at load time: `GetTexture` leaves the whole state unchanged, and after a
`LoadSet` of a non-empty set any number `k` of successive `GetTexture` calls on the set's name
all return the pointer that `LoadSet` stored, the state staying the one `LoadSet` left. -/
theorem GetTexture_frame_after_LoadSet (env : Env) (s : State) (set : P3D.Set) (time : Nat)
    (name : String) (k : Nat)
    (hne : set.textures ≠ []) :
    (GetTexture s name).2 = s ∧
    ∃ s' p, LoadSet env s set time = .ok s' ∧
      s'._textures.find set.name = some p ∧
      GetTextureTimes s' set.name k = (List.replicate k p, s') := by
  obtain ⟨hi, h1⟩ := LoadSet_of_ne_nil env s set time hne
  refine ⟨GetTexture_snd s name, _, _, h1, Table.find_assign_same _ _ _, ?_⟩
  induction k with
  | zero => rfl
  | succ k ih =>
    unfold GetTextureTimes
    simp only [GetTexture_snd, ih, GetTexture_fst, List.replicate_succ]
    rw [Table.find_assign_same]
    rfl

/-- C8 on the three-candidate sample set, with three successive lookups. -/
theorem GetTexture_frame_after_LoadSet_witness :
    (GetTexture Sample.s0 "x").2 = Sample.s0 ∧
    ∃ s' p, LoadSet Sample.env Sample.s0 Sample.abc 7 = .ok s' ∧
      s'._textures.find Sample.abc.name = some p ∧
      GetTextureTimes s' Sample.abc.name 3 = (List.replicate 3 p, s') :=
  GetTexture_frame_after_LoadSet Sample.env Sample.s0 Sample.abc 7 "x" 3 (by decide)

/-- C10. Frame of a load: every load call that is defined on the state (`AddTexture` of a pointer
to a live texture, `LoadSet` of a non-empty set, any `LoadTexture`, `LoadShader`,
`LoadGeometry`, `AddFont`) succeeds, and with `n` the asset name it stores under: the entry
under every other name of its own table and every entry of the other three tables are
unchanged (the other three tables are equal as a whole), the fallback pointer and every live
texture object are unchanged, every key present before is present after, and `n` is present
after. -/
theorem load_changes_only_own_entry (env : Env) (s : State) (c : Call)
    (hwf : c.wellFormed s = true) :
    ∃ s' n, c.apply env s = .ok s' ∧ c.key s = some n ∧
      s'._errorTexture = s._errorTexture ∧
      (∀ p t, s.heap.deref p = some t → s'.heap.deref p = some t) ∧
      (∀ cat m, (cat ≠ c.category ∨ m ≠ n) → lookup s' cat m = lookup s cat m) ∧
      (∀ cat m, (lookup s cat m).isSome = true → (lookup s' cat m).isSome = true) ∧
      (lookup s' c.category n).isSome = true ∧
      (c.category ≠ Category.texture → s'._textures = s._textures) ∧
      (c.category ≠ Category.shader → s'._shaders = s._shaders) ∧
      (c.category ≠ Category.geometry → s'._geometries = s._geometries) ∧
      (c.category ≠ Category.font → s'._fonts = s._fonts) := by
  cases c with
  | AddTexture texture =>
    obtain ⟨t, ht⟩ := Option.isSome_iff_exists.mp hwf
    have hok : (Call.AddTexture texture).apply env s = .ok _ := AddTexture_of_deref s texture t ht
    obtain ⟨hf1, hf2⟩ := call_apply_frame env s _ _ hok
    obtain ⟨l1, l2, l3⟩ := lookup_of_texture_assign s
      { s with _textures := s._textures.assign t.name texture } t.name texture rfl rfl rfl rfl
    refine ⟨_, t.name, hok, ?_, hf1, hf2, l1, l2, l3, fun h => absurd rfl h, fun _ => rfl,
      fun _ => rfl, fun _ => rfl⟩
    show (s.heap.deref texture).map Texture.name = some t.name
    rw [ht]
    rfl
  | LoadTexture sprite =>
    have hok : (Call.LoadTexture sprite).apply env s = .ok _ := rfl
    obtain ⟨hf1, hf2⟩ := call_apply_frame env s _ _ hok
    obtain ⟨l1, l2, l3⟩ := lookup_of_texture_assign s (ResourceManager.LoadTexture env s sprite)
      sprite.name _ rfl rfl rfl rfl
    exact ⟨_, sprite.name, hok, rfl, hf1, hf2, l1, l2, l3, fun h => absurd rfl h, fun _ => rfl,
      fun _ => rfl, fun _ => rfl⟩
  | LoadSet set time =>
    have hne : set.textures ≠ [] := by
      intro h
      have hwf' : (!set.textures.isEmpty) = true := hwf
      rw [h] at hwf'
      cases hwf'
    obtain ⟨hi, hset⟩ := LoadSet_of_ne_nil env s set time hne
    have hok : (Call.LoadSet set time).apply env s = .ok _ := hset
    obtain ⟨hf1, hf2⟩ := call_apply_frame env s _ _ hok
    obtain ⟨l1, l2, l3⟩ := lookup_of_texture_assign s
      { s with
        heap := (s.heap.alloc (env.textureOfP3D (set.textures.get ⟨_, hi⟩))).2
        _textures := s._textures.assign set.name
          (s.heap.alloc (env.textureOfP3D (set.textures.get ⟨_, hi⟩))).1 }
      set.name _ rfl rfl rfl rfl
    exact ⟨_, set.name, hok, rfl, hf1, hf2, l1, l2, l3, fun h => absurd rfl h, fun _ => rfl,
      fun _ => rfl, fun _ => rfl⟩
  | LoadShader shader =>
    have hok : (Call.LoadShader shader).apply env s = .ok _ := rfl
    obtain ⟨hf1, hf2⟩ := call_apply_frame env s _ _ hok
    obtain ⟨l1, l2, l3⟩ := lookup_of_shader_assign s (ResourceManager.LoadShader env s shader)
      shader.name _ rfl rfl rfl rfl
    exact ⟨_, shader.name, hok, rfl, hf1, hf2, l1, l2, l3, fun _ => rfl,
      fun h => absurd rfl h, fun _ => rfl, fun _ => rfl⟩
  | LoadGeometry geo =>
    have hok : (Call.LoadGeometry geo).apply env s = .ok _ := rfl
    obtain ⟨hf1, hf2⟩ := call_apply_frame env s _ _ hok
    obtain ⟨l1, l2, l3⟩ := lookup_of_geometry_assign s (ResourceManager.LoadGeometry env s geo)
      geo.name _ rfl rfl rfl rfl
    exact ⟨_, geo.name, hok, rfl, hf1, hf2, l1, l2, l3, fun _ => rfl, fun _ => rfl,
      fun h => absurd rfl h, fun _ => rfl⟩
  | AddFont name font =>
    have hok : (Call.AddFont name font).apply env s = .ok _ := rfl
    obtain ⟨hf1, hf2⟩ := call_apply_frame env s _ _ hok
    obtain ⟨l1, l2, l3⟩ := lookup_of_font_assign s (ResourceManager.AddFont s name font)
      name _ rfl rfl rfl rfl
    exact ⟨_, name, hok, rfl, hf1, hf2, l1, l2, l3, fun _ => rfl, fun _ => rfl, fun _ => rfl,
      fun h => absurd rfl h⟩

/-- C10 on the sample state, for a `LoadSet` call. -/
theorem load_changes_only_own_entry_witness :
    ∃ s' n, (Call.LoadSet Sample.abc 7).apply Sample.env Sample.loaded = .ok s' ∧
      (Call.LoadSet Sample.abc 7).key Sample.loaded = some n ∧
      s'._errorTexture = Sample.loaded._errorTexture ∧
      (∀ p t, Sample.loaded.heap.deref p = some t → s'.heap.deref p = some t) ∧
      (∀ cat m, (cat ≠ (Call.LoadSet Sample.abc 7).category ∨ m ≠ n) →
        lookup s' cat m = lookup Sample.loaded cat m) ∧
      (∀ cat m, (lookup Sample.loaded cat m).isSome = true → (lookup s' cat m).isSome = true) ∧
      (lookup s' (Call.LoadSet Sample.abc 7).category n).isSome = true ∧
      ((Call.LoadSet Sample.abc 7).category ≠ Category.texture →
        s'._textures = Sample.loaded._textures) ∧
      ((Call.LoadSet Sample.abc 7).category ≠ Category.shader →
        s'._shaders = Sample.loaded._shaders) ∧
      ((Call.LoadSet Sample.abc 7).category ≠ Category.geometry →
        s'._geometries = Sample.loaded._geometries) ∧
      ((Call.LoadSet Sample.abc 7).category ≠ Category.font →
        s'._fonts = Sample.loaded._fonts) :=
  load_changes_only_own_entry Sample.env Sample.loaded (Call.LoadSet Sample.abc 7) (by decide)

end ResourceManager

end Donut
